import Mathlib

/-!
Verification development for the carbon document-editing model
(src/src/article.js): a document is an ordered list of sections holding
named components, mutated through a transactional operation log with
undo/redo.  The definitions below are a shallow embedding of
Article.prototype.{insertSection, removeSection, transaction, do, redo,
undo, exec, getSectionByName, getComponentByName, getComponentClassByName}.

Only article.js is part of the sources; the collaborating classes
(Section, Paragraph and the other component variants, Selection, Utils)
are modelled from the specification where the embedding needs them, and
each such definition is marked with a doc comment starting
"Modelled from the spec:".

Selection notifications (setCursor / select) go to an external singleton
service that is not part of the document state (the specification treats
selection UI behavior as an external collaborator), so the executor's
cursor notifications are not modelled as document-state changes.  The DOM
mirror (this.dom) is likewise external rendering state and is not
modelled.

JavaScript failure behavior is made explicit: a method call on an
undefined lookup result is a TypeError crash, modelled as an
Except.error ExecErr.typeError; the specification's demanded NotFound
error kind is included in ExecErr so that statements about it can be
expressed, but the embedded code never produces it.
-/

namespace Carbon

/-- Error kinds.  typeError models a JavaScript TypeError crash from
dereferencing undefined; indexOutOfRange is the spec's error for a bad
structural index; notFound is the error kind the specification demands
for name-lookup misses (the embedded source never produces it). -/
inductive ExecErr where
  | typeError
  | indexOutOfRange
  | notFound
deriving DecidableEq

/-- A content component: name, variant kind (constructor class name),
text buffer, formatting ranges and construction attributes. -/
structure Component where
  name : String
  componentClass : String
  text : List Char
  formats : List String
  attrs : List (String × String)
deriving DecidableEq

/-- Modelled from the spec: paragraph.js is not under src/; the component
capability surface (§6) is insertCharactersAt, removeCharactersAt,
setText, applyFormats.  Insert a character run at an index. -/
def Component.insertCharactersAt (c : Component) (v : List Char) (i : Nat) :
    Component :=
  { c with text := c.text.take i ++ v ++ c.text.drop i }

/-- Modelled from the spec: remove count characters at an index. -/
def Component.removeCharactersAt (c : Component) (i k : Nat) : Component :=
  { c with text := c.text.take i ++ c.text.drop (i + k) }

/-- Modelled from the spec: replace the component's text. -/
def Component.setText (c : Component) (v : List Char) : Component :=
  { c with text := v }

/-- Modelled from the spec: apply formatting ranges.  The spec does not
fix the merge semantics of formatting ranges beyond deterministic
application; applying appends the ranges to the stored list. -/
def Component.applyFormats (c : Component) (fs : List String) : Component :=
  { c with formats := c.formats ++ fs }

/-- A section: a named ordered container of components. -/
structure Section where
  name : String
  components : List Component
deriving DecidableEq

/-- Modelled from the spec: section.js is not under src/.  §4.2:
insertComponentAt inserts, and fails with IndexOutOfRange if the index is
not in [0, length]. -/
def Section.insertComponentAt (s : Section) (c : Component) (i : Nat) :
    Except ExecErr Section :=
  if i ≤ s.components.length then
    Except.ok { s with components := s.components.take i ++ c :: s.components.drop i }
  else
    Except.error ExecErr.indexOutOfRange

/-- One action spec of an operation (§6 wire shape).  Absent JavaScript
object fields are Option.none.  The JS field named "section" is called
sectionName here because section is a Lean keyword.  cursorOffset and
selectRange only drive selection notifications, which go to the external
selection service. -/
structure ActionSpec where
  op : String
  component : Option String := none
  sectionName : Option String := none
  value : Option (List Char) := none
  index : Option Nat := none
  count : Option Nat := none
  formats : Option (List String) := none
  cursorOffset : Option Nat := none
  selectRange : Option Nat := none
  componentClass : Option String := none
  attrs : List (String × String) := []
deriving DecidableEq

/-- One operation: a forward ("do") and an inverse ("undo") action spec,
both supplied by whoever built the transaction. -/
structure Operation where
  doSpec : ActionSpec
  undoSpec : ActionSpec
deriving DecidableEq

/-- The action argument of Article.prototype.exec: the string 'do' or
'undo'. -/
inductive EAction where
  | aDo
  | aUndo
deriving DecidableEq

/-- operation[action] of the source: select the forward or inverse spec. -/
def Operation.spec (o : Operation) : EAction → ActionSpec
  | EAction.aDo => o.doSpec
  | EAction.aUndo => o.undoSpec

/-- A transaction: the ops array passed to Article.prototype.transaction. -/
abbrev Transaction := List Operation

/-- The article: document sections plus the operation log (history array
and historyAt cursor), as set up in the Article constructor. -/
structure Article where
  sections : List Section
  history : List Transaction
  historyAt : Nat
deriving DecidableEq

/-- Inner loop of getComponentByName: first component with the name in a
component list. -/
def findComponentIn : List Component → String → Option Component
  | [], _ => none
  | c :: rest, n => if c.name = n then some c else findComponentIn rest n

/-- Article.prototype.getComponentByName's scan: sections in order, each
section's components in order, first match wins; a miss falls through and
returns undefined (none). -/
def findComponent : List Section → String → Option Component
  | [], _ => none
  | s :: rest, n =>
    match findComponentIn s.components n with
    | some c => some c
    | none => findComponent rest n

/-- Article.prototype.getSectionByName's scan: first section with the
name; a miss returns undefined (none). -/
def findSection : List Section → String → Option Section
  | [], _ => none
  | s :: rest, n => if s.name = n then some s else findSection rest n

def Article.getComponentByName (a : Article) (n : String) : Option Component :=
  findComponent a.sections n

def Article.getSectionByName (a : Article) (n : String) : Option Section :=
  findSection a.sections n

/-- Remove the first component with the given name from a component list
(Section.removeComponent by identity on the component getComponentByName
found). -/
def removeNamedIn : List Component → String → List Component
  | [], _ => []
  | c :: rest, n => if c.name = n then rest else removeNamedIn rest n |> (c :: ·)

/-- Remove the first component with the given name from the document:
component.section.removeComponent(component) where component is the first
match of the getComponentByName scan. -/
def removeComponentNamed : List Section → String → List Section
  | [], _ => []
  | s :: rest, n =>
    match findComponentIn s.components n with
    | some _ => { s with components := removeNamedIn s.components n } :: rest
    | none => s :: removeComponentNamed rest n

/-- Update in place the first component with the given name in a
component list. -/
def updateNamedIn (f : Component → Component) :
    List Component → String → List Component
  | [], _ => []
  | c :: rest, n => if c.name = n then f c :: rest else c :: updateNamedIn f rest n

/-- Update in place the first component with the given name in the
document (the object the getComponentByName scan found). -/
def updateComponentNamed (f : Component → Component) :
    List Section → String → List Section
  | [], _ => []
  | s :: rest, n =>
    match findComponentIn s.components n with
    | some _ => { s with components := updateNamedIn f s.components n } :: rest
    | none => s :: updateComponentNamed f rest n

/-- Replace the first section with the given name (the object the
getSectionByName scan found, mutated in place in the source). -/
def replaceSectionNamed : List Section → String → Section → List Section
  | [], _, _ => []
  | s :: rest, n, s' =>
    if s.name = n then s' :: rest else s :: replaceSectionNamed rest n s'

/-- Article.prototype.getComponentClassByName: the four registered
constructor names; anything else falls through to undefined (none). -/
def getComponentClassByName : Option String → Option String
  | some "Paragraph" => some "Paragraph"
  | some "Figure" => some "Figure"
  | some "YouTubeComponent" => some "YouTubeComponent"
  | some "GiphyComponent" => some "GiphyComponent"
  | _ => none

/-- Modelled from the spec: constructing a component through the variant
registry from (variantKind, name, attrs) (§4.5).  The source builds
options via Utils.extend with base field name = spec.component, so an
attrs entry named "name" overrides it; the new component starts with
empty text and formats. -/
def newComponent (cls : String) (spec : ActionSpec) : Component :=
  { name := (spec.attrs.lookup "name").getD (spec.component.getD "")
    componentClass := cls
    text := []
    formats := []
    attrs := spec.attrs }

/-- The dispatcher body of Article.prototype.exec on one action spec.
Each branch mirrors the corresponding if-branch of the source; a method
call on a missed lookup is a typeError.  An updateComponent spec with a
missing component but no value and no formats performs no dereference and
silently does nothing.  An op string outside the five kinds falls through
the if/else chain and does nothing.  For insertChars/removeChars the
value/index/count fields are required by the wire shape (§6); an absent
field defaults to the empty edit. -/
def execSpec (ss : List Section) (spec : ActionSpec) :
    Except ExecErr (List Section) :=
  if spec.op = "insertChars" then
    match spec.component with
    | none => Except.error ExecErr.typeError
    | some n =>
      match findComponent ss n with
      | none => Except.error ExecErr.typeError
      | some _ => Except.ok (updateComponentNamed
          (fun c => c.insertCharactersAt (spec.value.getD []) (spec.index.getD 0)) ss n)
  else if spec.op = "removeChars" then
    match spec.component with
    | none => Except.error ExecErr.typeError
    | some n =>
      match findComponent ss n with
      | none => Except.error ExecErr.typeError
      | some _ => Except.ok (updateComponentNamed
          (fun c => c.removeCharactersAt (spec.index.getD 0) (spec.count.getD 0)) ss n)
  else if spec.op = "updateComponent" then
    match spec.component with
    | none =>
      if spec.value.isSome || spec.formats.isSome then Except.error ExecErr.typeError
      else Except.ok ss
    | some n =>
      match findComponent ss n with
      | none =>
        if spec.value.isSome || spec.formats.isSome then Except.error ExecErr.typeError
        else Except.ok ss
      | some _ => Except.ok (updateComponentNamed (fun c =>
          let c1 := match spec.value with
            | some v => c.setText v
            | none => c
          match spec.formats with
          | some fs => c1.applyFormats fs
          | none => c1) ss n)
  else if spec.op = "deleteComponent" then
    match spec.component with
    | none => Except.error ExecErr.typeError
    | some n =>
      match findComponent ss n with
      | none => Except.error ExecErr.typeError
      | some _ => Except.ok (removeComponentNamed ss n)
  else if spec.op = "insertComponent" then
    match getComponentClassByName spec.componentClass with
    | none => Except.error ExecErr.typeError
    | some cls =>
      match spec.sectionName with
      | none => Except.error ExecErr.typeError
      | some sn =>
        match findSection ss sn with
        | none => Except.error ExecErr.typeError
        | some s =>
          match spec.index with
          | none => Except.error ExecErr.indexOutOfRange
          | some i =>
            match s.insertComponentAt (newComponent cls spec) i with
            | Except.error e => Except.error e
            | Except.ok s' => Except.ok (replaceSectionNamed ss sn s')
  else
    Except.ok ss

/-- Article.prototype.exec(operation, action): dispatch operation[action].
Only the section list (document content) can change; the operation log is
untouched by the executor. -/
def Article.exec (a : Article) (operation : Operation) (action : EAction) :
    Except ExecErr (List Section) :=
  execSpec a.sections (operation.spec action)

/-- Result of running (part of) a transaction: ok with the final article,
or err with the error kind and the article at the moment the JavaScript
exception escaped (mutations made before the crash persist). -/
inductive TxResult where
  | ok (a : Article)
  | err (e : ExecErr) (a : Article)
deriving DecidableEq

/-- The article state carried by a result, crashed or not. -/
def resState : TxResult → Article
  | TxResult.ok a => a
  | TxResult.err _ a => a

/-- The operation loops of Article.prototype.do / undo: execute the
operations left to right, stopping with the partially mutated state when
one crashes. -/
def execOps (a : Article) (ops : List Operation) (act : EAction) : TxResult :=
  match ops with
  | [] => TxResult.ok a
  | o :: rest =>
    match a.exec o act with
    | Except.error e => TxResult.err e a
    | Except.ok ss => execOps { a with sections := ss } rest act

/-- Article.prototype.do: ops = history[historyAt++] — the cursor is
incremented first — then each operation's forward spec runs in array
order.  When historyAt is past the end, ops is undefined and reading
ops.length is a TypeError, with historyAt already incremented. -/
def Article.doNext (a : Article) : TxResult :=
  match a.history.get? a.historyAt with
  | some ops => execOps { a with historyAt := a.historyAt + 1 } ops EAction.aDo
  | none => TxResult.err ExecErr.typeError { a with historyAt := a.historyAt + 1 }

/-- Article.prototype.transaction: if historyAt < history.length, splice
off everything from historyAt on (discard the redo tail), push the new
ops array, and run do(). -/
def Article.transaction (a : Article) (ops : Transaction) : TxResult :=
  let h :=
    if a.historyAt < a.history.length then a.history.take a.historyAt
    else a.history
  Article.doNext { a with history := h ++ [ops] }

/-- Article.prototype.redo: run do() only if historyAt < history.length. -/
def Article.redo (a : Article) : TxResult :=
  if a.historyAt < a.history.length then a.doNext else TxResult.ok a

/-- Article.prototype.undo: only if historyAt > 0, take
ops = history[--historyAt] and execute each operation's inverse spec in
reverse array order. -/
def Article.undo (a : Article) : TxResult :=
  if 0 < a.historyAt then
    match a.history.get? (a.historyAt - 1) with
    | some ops =>
      execOps { a with historyAt := a.historyAt - 1 } ops.reverse EAction.aUndo
    | none => TxResult.err ExecErr.typeError { a with historyAt := a.historyAt - 1 }
  else
    TxResult.ok a

/-- Modelled from the spec: new Paragraph() with no params — the default
plain-text component inserted into an otherwise empty section. -/
def defaultParagraph : Component :=
  { name := "", componentClass := "Paragraph", text := [], formats := [], attrs := [] }

/-- Article.prototype.insertSection: a section with no components first
receives a default Paragraph at index 0 (index 0 is always in range, so
the IndexOutOfRange branch is unreachable); the section is then pushed
onto the document's section list and returned. -/
def Article.insertSection (a : Article) (s : Section) : Article × Section :=
  let s' :=
    if s.components.isEmpty then
      match s.insertComponentAt defaultParagraph 0 with
      | Except.ok s2 => s2
      | Except.error _ => s
    else s
  ({ a with sections := a.sections ++ [s'] }, s')

/-- Array.prototype.indexOf: position of the first match, or -1. -/
def jsIndexOf (l : List Section) (x : Section) : Int :=
  match l.findIdx? (fun s => s = x) with
  | some i => (i : Int)
  | none => -1

/-- JavaScript Array.prototype.splice(start, 1) viewed as removal of one
element: a negative start counts from the end, clamped at 0; a start past
the end removes nothing. -/
def spliceRemoveOne (l : List Section) (i : Int) : List Section :=
  let start : Nat := if i < 0 then ((l.length : Int) + i).toNat else min i.toNat l.length
  l.take start ++ l.drop (start + 1)

/-- Article.prototype.removeSection: splice(indexOf(section), 1) and
return the argument.  When the section is absent, indexOf is -1 and
splice(-1, 1) removes the LAST section. -/
def Article.removeSection (a : Article) (s : Section) : Article × Section :=
  ({ a with sections := spliceRemoveOne a.sections (jsIndexOf a.sections s) }, s)

/-- The Article constructor: insert the given sections one by one via
insertSection, then start with an empty history and historyAt = 0. -/
def newArticle (ss : List Section) : Article :=
  let base : Article := { sections := [], history := [], historyAt := 0 }
  { ss.foldl (fun a s => (a.insertSection s).1) base with
      history := [], historyAt := 0 }

/-- States reachable from a freshly constructed article by any sequence
of transaction / undo / redo calls, including calls that crash (the
partially mutated state persists after a JavaScript exception). -/
inductive Reachable : Article → Prop where
  | init (ss : List Section) : Reachable (newArticle ss)
  | tx (a : Article) (T : Transaction) :
      Reachable a → Reachable (resState (a.transaction T))
  | un (a : Article) : Reachable a → Reachable (resState a.undo)
  | re (a : Article) : Reachable a → Reachable (resState a.redo)

/-! Concrete states and transactions used by the witnesses and
counterexamples below. -/

/-- A plain paragraph component named "c" with empty text. -/
def comC : Component :=
  { name := "c", componentClass := "Paragraph", text := [], formats := [], attrs := [] }

/-- A section named "s" holding comC. -/
def secS : Section := { name := "s", components := [comC] }

/-- A section named "s2", not part of any article below. -/
def secS2 : Section := { name := "s2", components := [comC] }

/-- A section with no components. -/
def secEmpty : Section := { name := "e", components := [] }

/-- A fresh-looking document: one section, empty log. -/
def artUR : Article := { sections := [secS], history := [], historyAt := 0 }

/-- Forward spec: insert "x" at index 0 of component "c". -/
def insX : ActionSpec :=
  { op := "insertChars", component := some "c", value := some ['x'], index := some 0 }

/-- Spec: insert "y" at index 0 of component "c". -/
def insY : ActionSpec :=
  { op := "insertChars", component := some "c", value := some ['y'], index := some 0 }

/-- Spec naming a component that exists in no article below. -/
def insGhost : ActionSpec :=
  { op := "insertChars", component := some "ghost", value := some ['z'], index := some 0 }

/-- A bare updateComponent spec naming a missing component: no value, no
formats, no cursorOffset. -/
def updGhost : ActionSpec := { op := "updateComponent", component := some "ghost" }

/-- A transaction whose recorded inverse is NOT an inverse of its forward
spec: both insert characters. -/
def txBad : Transaction := [{ doSpec := insX, undoSpec := insY }]

/-- A well-formed transaction: the inverse removes exactly what the
forward spec inserted. -/
def txGood : Transaction :=
  [{ doSpec := insX,
     undoSpec := { op := "removeChars", component := some "c",
                   index := some 0, count := some 1 } }]

/-- A transaction whose first operation succeeds and whose second crashes
on a missing component. -/
def txFail : Transaction :=
  [{ doSpec := { op := "insertChars", component := some "c",
                 value := some ['H', 'i'], index := some 0 },
     undoSpec := { op := "removeChars", component := some "c",
                   index := some 0, count := some 2 } },
   { doSpec := insGhost, undoSpec := insGhost }]

/-- artUR after applying txBad: text "x", cursor 1. -/
def artUR1 : Article :=
  { sections := [{ name := "s", components :=
      [{ name := "c", componentClass := "Paragraph", text := ['x'],
         formats := [], attrs := [] }] }],
    history := [txBad], historyAt := 1 }

/-- artUR1 after undo (the bogus inverse inserted "y"): text "yx", cursor 0. -/
def artUR2 : Article :=
  { sections := [{ name := "s", components :=
      [{ name := "c", componentClass := "Paragraph", text := ['y', 'x'],
         formats := [], attrs := [] }] }],
    history := [txBad], historyAt := 0 }

/-- artUR2 after redo: text "xyx", cursor 1 — not the state after txBad. -/
def artUR3 : Article :=
  { sections := [{ name := "s", components :=
      [{ name := "c", componentClass := "Paragraph", text := ['x', 'y', 'x'],
         formats := [], attrs := [] }] }],
    history := [txBad], historyAt := 1 }

/-- artUR after applying txGood: text "x", cursor 1. -/
def artW1 : Article :=
  { sections := [{ name := "s", components :=
      [{ name := "c", componentClass := "Paragraph", text := ['x'],
         formats := [], attrs := [] }] }],
    history := [txGood], historyAt := 1 }

/-- artW1 after undo: text restored to empty, cursor 0. -/
def artW2 : Article :=
  { sections := [secS], history := [txGood], historyAt := 0 }

/-- artUR after the failing txFail: first op applied (text "Hi"), log
pushed, cursor already incremented when the crash escaped. -/
def artFailState : Article :=
  { sections := [{ name := "s", components :=
      [{ name := "c", componentClass := "Paragraph", text := ['H', 'i'],
         formats := [], attrs := [] }] }],
    history := [txFail], historyAt := 1 }

/-- A state with one redoable transaction in front of the cursor. -/
def artPre : Article :=
  { sections := [secS], history := [txGood], historyAt := 0 }

/-- A state with one applied transaction behind the cursor. -/
def artMid : Article :=
  { sections := [secS], history := [txGood], historyAt := 1 }

/-! Helper lemmas: the executor loop never touches the log, and the log
bookkeeping of doNext / transaction / undo / redo. -/

/-- Running operations only rewrites sections: history and historyAt of
the carried state are unchanged, crash or not. -/
theorem execOps_log (ops : List Operation) (a : Article) (act : EAction) :
    (resState (execOps a ops act)).history = a.history ∧
      (resState (execOps a ops act)).historyAt = a.historyAt := by
  induction ops generalizing a with
  | nil => exact ⟨rfl, rfl⟩
  | cons o rest ih =>
    cases h : a.exec o act with
    | error e => simp only [execOps, h]; exact ⟨rfl, rfl⟩
    | ok ss => simp only [execOps, h]; exact ih { a with sections := ss }

/-- Log preservation of execOps, successful-run form. -/
theorem execOps_ok_log {a b : Article} {ops : List Operation} {act : EAction}
    (h : execOps a ops act = TxResult.ok b) :
    b.history = a.history ∧ b.historyAt = a.historyAt := by
  have h2 := execOps_log ops a act
  rw [h] at h2
  exact h2

/-- doNext always increments historyAt by one — before running any
operation — and leaves the history array alone. -/
theorem doNext_log (a : Article) :
    (resState a.doNext).history = a.history ∧
      (resState a.doNext).historyAt = a.historyAt + 1 := by
  unfold Article.doNext
  cases h : a.history.get? a.historyAt with
  | some ops =>
    simp only [h]
    simpa using execOps_log ops { a with historyAt := a.historyAt + 1 } EAction.aDo
  | none => simp [h, resState]

/-- The truncation step of transaction in closed form: under the cursor
invariant it is always a take. -/
theorem trunc_eq_take {a : Article} (h : a.historyAt ≤ a.history.length) :
    (if a.historyAt < a.history.length then a.history.take a.historyAt
      else a.history) = a.history.take a.historyAt := by
  rcases lt_or_eq_of_le h with hlt | heq
  · rw [if_pos hlt]
  · rw [if_neg (by omega), heq, List.take_length]

/-- Reading the just-pushed transaction back out of the truncated
history. -/
theorem take_append_get (H : List Transaction) (T : Transaction) (n : Nat)
    (h : n ≤ H.length) : (H.take n ++ [T]).get? n = some T := by
  have hlen : (H.take n).length = n := by
    rw [List.length_take]; omega
  rw [List.get?_eq_getElem?, List.getElem?_append_right (by omega), hlen]
  simp

/-- transaction in executor form: truncate, push, bump the cursor, run
the forward specs in order. -/
theorem transaction_eq {a : Article} (T : Transaction)
    (h : a.historyAt ≤ a.history.length) :
    a.transaction T =
      execOps { a with history := a.history.take a.historyAt ++ [T],
                        historyAt := a.historyAt + 1 } T EAction.aDo := by
  have hg : (a.history.take a.historyAt ++ [T]).get? a.historyAt = some T :=
    take_append_get a.history T a.historyAt h
  simp only [Article.transaction, trunc_eq_take h, Article.doNext]
  simp only [hg]

/-- redo in executor form when a transaction is available. -/
theorem redo_eq {a : Article} {ops : Transaction}
    (h : a.history.get? a.historyAt = some ops) :
    a.redo = execOps { a with historyAt := a.historyAt + 1 } ops EAction.aDo := by
  have hlt : a.historyAt < a.history.length := by
    by_contra hc
    rw [List.get?_eq_none.mpr (le_of_not_lt hc)] at h
    exact Option.noConfusion h
  unfold Article.redo
  rw [if_pos hlt]
  unfold Article.doNext
  simp only [h]

/-- undo in executor form: decrement the cursor, run the inverse specs in
reverse order. -/
theorem undo_eq {a : Article} {ops : Transaction} (h0 : 0 < a.historyAt)
    (h : a.history.get? (a.historyAt - 1) = some ops) :
    a.undo = execOps { a with historyAt := a.historyAt - 1 } ops.reverse
      EAction.aUndo := by
  unfold Article.undo
  rw [if_pos h0]
  simp only [h]

/-- redo with the cursor at the head of the history does nothing. -/
theorem redo_noop {a : Article} (h : a.history.length ≤ a.historyAt) :
    a.redo = TxResult.ok a := by
  unfold Article.redo
  rw [if_neg (not_lt.mpr h)]

/-- undo with the cursor at the origin does nothing. -/
theorem undo_noop {a : Article} (h : a.historyAt = 0) :
    a.undo = TxResult.ok a := by
  unfold Article.undo
  rw [if_neg (by omega)]

/-- transaction's log bookkeeping, crash or not: the redo tail is
replaced by the new transaction and the cursor moves past it. -/
theorem transaction_log {a : Article} (T : Transaction)
    (h : a.historyAt ≤ a.history.length) :
    (resState (a.transaction T)).history = a.history.take a.historyAt ++ [T] ∧
      (resState (a.transaction T)).historyAt = a.historyAt + 1 := by
  rw [transaction_eq T h]
  simpa using execOps_log T
    { a with history := a.history.take a.historyAt ++ [T],
              historyAt := a.historyAt + 1 } EAction.aDo

/-- undo never touches the history array and never moves the cursor up. -/
theorem undo_log (a : Article) :
    (resState a.undo).history = a.history ∧
      (resState a.undo).historyAt ≤ a.historyAt := by
  rcases Nat.eq_zero_or_pos a.historyAt with hz | hp
  · rw [undo_noop hz]; exact ⟨rfl, le_refl _⟩
  · cases h : a.history.get? (a.historyAt - 1) with
    | some ops =>
      rw [undo_eq hp h]
      have h2 := execOps_log ops.reverse
        { a with historyAt := a.historyAt - 1 } EAction.aUndo
      simp only at h2
      exact ⟨h2.1, by omega⟩
    | none =>
      unfold Article.undo
      rw [if_pos hp]
      simp only [h]
      exact ⟨rfl, Nat.sub_le _ _⟩

/-- redo never touches the history array. -/
theorem redo_hist (a : Article) : (resState a.redo).history = a.history := by
  unfold Article.redo
  split
  · exact (doNext_log a).1
  · rfl

/-- redo preserves the cursor invariant. -/
theorem redo_at_le {a : Article} (h : a.historyAt ≤ a.history.length) :
    (resState a.redo).historyAt ≤ (resState a.redo).history.length := by
  rw [redo_hist]
  unfold Article.redo
  split
  · have h2 := (doNext_log a).2
    rw [h2]
    omega
  · exact h

/-! Claim theorems. -/

/-- C1 counterexample: the claim fails as stated.  txBad's recorded
inverse is not an inverse (both specs insert characters), yet
transaction() accepts it; after applying it (text "x"), undo() then
redo() produces text "xyx", a state structurally different from the
post-transaction state. -/
theorem c1_counterexample :
    artUR.transaction txBad = TxResult.ok artUR1 ∧
    artUR1.undo = TxResult.ok artUR2 ∧
    artUR2.redo = TxResult.ok artUR3 ∧
    artUR3 ≠ artUR1 :=
  ⟨by decide, by decide, by decide, by decide⟩

/-- C1 (amended): for a transaction T applied via transaction() to a
state satisfying the cursor invariant, IF the subsequent undo() succeeds
and actually restores the pre-transaction sections (i.e. T's recorded
inverse specs really invert its forward specs on this document), THEN
redo() yields exactly the post-transaction state — sections, history and
cursor all equal. -/
theorem c1_undo_redo_roundtrip (a0 a1 a2 : Article) (T : Transaction)
    (hlen : a0.historyAt ≤ a0.history.length)
    (ht : a0.transaction T = TxResult.ok a1)
    (hu : a1.undo = TxResult.ok a2)
    (hrestore : a2.sections = a0.sections) :
    a2.redo = TxResult.ok a1 := by
  rw [transaction_eq T hlen] at ht
  obtain ⟨h1h, h1a⟩ := execOps_ok_log ht
  simp only at h1h h1a
  have hg1 : a1.history.get? (a1.historyAt - 1) = some T := by
    rw [h1h, h1a]
    simpa using take_append_get a0.history T a0.historyAt hlen
  rw [undo_eq (by omega) hg1] at hu
  obtain ⟨h2h, h2a⟩ := execOps_ok_log hu
  simp only at h2h h2a
  have hg2 : a2.history.get? a2.historyAt = some T := by
    rw [h2h, h2a, h1h, h1a]
    simpa using take_append_get a0.history T a0.historyAt hlen
  rw [redo_eq hg2]
  have hstate : ({ a2 with historyAt := a2.historyAt + 1 } : Article) =
      { a0 with history := a0.history.take a0.historyAt ++ [T],
                 historyAt := a0.historyAt + 1 } := by
    show Article.mk a2.sections a2.history (a2.historyAt + 1) =
      Article.mk a0.sections (a0.history.take a0.historyAt ++ [T])
        (a0.historyAt + 1)
    rw [hrestore, h2h, h1h, h2a, h1a, Nat.add_sub_cancel]
  rw [hstate]
  exact ht

/-- C1 witness: the amended round trip on the well-formed transaction
txGood, whose inverse removes exactly the character its forward spec
inserted. -/
theorem c1_undo_redo_roundtrip_witness :
    artUR.historyAt ≤ artUR.history.length ∧
    artUR.transaction txGood = TxResult.ok artW1 ∧
    artW1.undo = TxResult.ok artW2 ∧
    artW2.sections = artUR.sections ∧
    artW2.redo = TxResult.ok artW1 :=
  ⟨by decide, by decide, by decide, rfl,
    c1_undo_redo_roundtrip artUR artW1 artW2 txGood (by decide) (by decide)
      (by decide) rfl⟩

/-- C2 counterexample: transaction application is not all-or-nothing.
txFail's first operation applies (text becomes "Hi"), its second crashes
on a missing component; the escaped state has the cursor already
incremented to 1 and the document mutated away from its pre-transaction
state. -/
theorem c2_counterexample :
    artUR.transaction txFail = TxResult.err ExecErr.typeError artFailState ∧
    artFailState.historyAt = 1 ∧
    artFailState.sections ≠ artUR.sections :=
  ⟨by decide, rfl, by decide⟩

/-- C2 (amended): cursor bookkeeping happens BEFORE the operations run,
not after the dispatcher confirms them: for any state satisfying the
cursor invariant, transaction() increments historyAt and appends the
transaction whether or not the operations all apply; operations before a
failing one stay applied (see the counterexample). -/
theorem c2_cursor_bookkeeping (a : Article) (T : Transaction)
    (h : a.historyAt ≤ a.history.length) :
    (resState (a.transaction T)).historyAt = a.historyAt + 1 ∧
    (resState (a.transaction T)).history = a.history.take a.historyAt ++ [T] :=
  ⟨(transaction_log T h).2, (transaction_log T h).1⟩

/-- C2 witness: the bookkeeping equalities on the crashing transaction
txFail. -/
theorem c2_cursor_bookkeeping_witness :
    artUR.historyAt ≤ artUR.history.length ∧
    (resState (artUR.transaction txFail)).historyAt = artUR.historyAt + 1 ∧
    (resState (artUR.transaction txFail)).history =
      artUR.history.take artUR.historyAt ++ [txFail] :=
  ⟨by decide, (c2_cursor_bookkeeping artUR txFail (by decide)).1,
    (c2_cursor_bookkeeping artUR txFail (by decide)).2⟩

/-- C3: submitting a transaction with the cursor strictly below the head
discards all transactions at indices ≥ historyAt, appends the new one,
applies its forward specs, and leaves the resulting state with no
redoable transaction: redo() afterwards is a no-op. -/
theorem c3_redo_tail_discarded (a : Article) (T : Transaction)
    (h : a.historyAt < a.history.length) :
    (resState (a.transaction T)).history = a.history.take a.historyAt ++ [T] ∧
    (resState (a.transaction T)).historyAt = a.historyAt + 1 ∧
    a.transaction T =
      execOps { a with history := a.history.take a.historyAt ++ [T],
                        historyAt := a.historyAt + 1 } T EAction.aDo ∧
    (resState (a.transaction T)).redo = TxResult.ok (resState (a.transaction T)) := by
  have hle := le_of_lt h
  have hlog := transaction_log T hle
  refine ⟨hlog.1, hlog.2, transaction_eq T hle, ?_⟩
  apply redo_noop
  rw [hlog.1, hlog.2]
  have hlen : (a.history.take a.historyAt).length = a.historyAt := by
    rw [List.length_take]; omega
  simp [hlen]

/-- C3 witness: artPre has one redoable transaction (historyAt 0, one
entry); submitting txBad discards it. -/
theorem c3_redo_tail_discarded_witness :
    artPre.historyAt < artPre.history.length ∧
    (resState (artPre.transaction txBad)).history =
      artPre.history.take artPre.historyAt ++ [txBad] ∧
    (resState (artPre.transaction txBad)).redo =
      TxResult.ok (resState (artPre.transaction txBad)) :=
  ⟨by decide, (c3_redo_tail_discarded artPre txBad (by decide)).1,
    (c3_redo_tail_discarded artPre txBad (by decide)).2.2.2⟩

/-- C4: redo() with the cursor at the head and undo() with the cursor at
the origin return the article completely unchanged — cursor, history and
document alike. -/
theorem c4_noop_bounds (a b : Article) (h1 : a.historyAt = a.history.length)
    (h2 : b.historyAt = 0) :
    a.redo = TxResult.ok a ∧ b.undo = TxResult.ok b :=
  ⟨redo_noop (le_of_eq h1.symm), undo_noop h2⟩

/-- C4 witness: artMid is at the head of its one-entry history; artUR is
at the origin. -/
theorem c4_noop_bounds_witness :
    artMid.historyAt = artMid.history.length ∧ artUR.historyAt = 0 ∧
    artMid.redo = TxResult.ok artMid ∧ artUR.undo = TxResult.ok artUR :=
  ⟨rfl, rfl, (c4_noop_bounds artMid artUR rfl rfl).1,
    (c4_noop_bounds artMid artUR rfl rfl).2⟩

/-- C5: forward application — by redo() or by transaction() — takes
history[historyAt], increments historyAt, and runs every operation's
forward spec in array order (execOps runs its list left to right with
EAction.aDo selecting doSpec); undo() decrements historyAt and runs the
inverse specs on the reversed operation array. -/
theorem c5_application_order :
    (∀ (a : Article) (ops : Transaction),
        a.history.get? a.historyAt = some ops →
        a.redo = execOps { a with historyAt := a.historyAt + 1 } ops
          EAction.aDo) ∧
    (∀ (a : Article) (T : Transaction), a.historyAt ≤ a.history.length →
        a.transaction T =
          execOps { a with history := a.history.take a.historyAt ++ [T],
                            historyAt := a.historyAt + 1 } T EAction.aDo) ∧
    (∀ (a : Article) (ops : Transaction), 0 < a.historyAt →
        a.history.get? (a.historyAt - 1) = some ops →
        a.undo = execOps { a with historyAt := a.historyAt - 1 } ops.reverse
          EAction.aUndo) :=
  ⟨fun _ _ h => redo_eq h, fun _ T h => transaction_eq T h,
    fun _ _ h0 h => undo_eq h0 h⟩

/-- C5 witness: the three characterizations at concrete states: artPre
(redoable entry in front of the cursor), artUR (fresh log), artMid
(applied entry behind the cursor). -/
theorem c5_application_order_witness :
    (artPre.history.get? artPre.historyAt = some txGood ∧
      artPre.redo = execOps { artPre with historyAt := artPre.historyAt + 1 }
        txGood EAction.aDo) ∧
    (artUR.historyAt ≤ artUR.history.length ∧
      artUR.transaction txGood =
        execOps { artUR with
                    history := artUR.history.take artUR.historyAt ++ [txGood],
                    historyAt := artUR.historyAt + 1 } txGood EAction.aDo) ∧
    (0 < artMid.historyAt ∧
      artMid.history.get? (artMid.historyAt - 1) = some txGood ∧
      artMid.undo = execOps { artMid with historyAt := artMid.historyAt - 1 }
        txGood.reverse EAction.aUndo) :=
  ⟨⟨rfl, c5_application_order.1 artPre txGood rfl⟩,
    ⟨by decide, c5_application_order.2.1 artUR txGood (by decide)⟩,
    ⟨by decide, rfl,
      c5_application_order.2.2 artMid txGood (by decide) rfl⟩⟩

/-- C6: insertSection turns a zero-component section into one holding
exactly the default plain-text Paragraph component at index 0, and in all
cases appends the (possibly auto-populated) section to the document and
returns it. -/
theorem c6_insert_section (a : Article) (s : Section) :
    (s.components = [] →
      (a.insertSection s).2.components = [defaultParagraph] ∧
        defaultParagraph.componentClass = "Paragraph") ∧
    (a.insertSection s).1.sections = a.sections ++ [(a.insertSection s).2] := by
  constructor
  · intro h
    refine ⟨?_, rfl⟩
    unfold Article.insertSection
    simp [h, Section.insertComponentAt]
  · rfl

/-- C6 witness: inserting the empty section secEmpty. -/
theorem c6_insert_section_witness :
    secEmpty.components = [] ∧
    (artUR.insertSection secEmpty).2.components = [defaultParagraph] ∧
    (artUR.insertSection secEmpty).1.sections =
      artUR.sections ++ [(artUR.insertSection secEmpty).2] :=
  ⟨rfl, ((c6_insert_section artUR secEmpty).1 rfl).1,
    (c6_insert_section artUR secEmpty).2⟩

/-- C7 counterexample: the claim fails as stated.  Lookup of the
non-existent name "ghost" returns undefined (none) rather than failing;
the dispatcher on an insertChars spec naming it crashes with a TypeError,
not a NotFound error; and an updateComponent spec naming it with no
value/formats/cursorOffset silently does nothing at all. -/
theorem c7_counterexample :
    artUR.getComponentByName "ghost" = none ∧
    execSpec artUR.sections insGhost = Except.error ExecErr.typeError ∧
    ExecErr.typeError ≠ ExecErr.notFound ∧
    execSpec artUR.sections updGhost = Except.ok artUR.sections :=
  ⟨rfl, rfl, by decide, rfl⟩

/-- C7 (amended): on a component name missing from the document, the
dispatcher's insertChars branch fails — but with a TypeError crash from
dereferencing the undefined lookup result, not with NotFound — while an
updateComponent spec carrying no value and no formats performs no
dereference and silently no-ops; getComponentByName itself returns
undefined (none) on a miss instead of raising an error. -/
theorem c7_lookup_failure (ss : List Section) (n : String) (v : List Char)
    (i : Nat) (h : findComponent ss n = none) :
    execSpec ss
        { op := "insertChars", component := some n, value := some v, index := some i } =
      Except.error ExecErr.typeError ∧
    execSpec ss { op := "updateComponent", component := some n } =
      Except.ok ss := by
  constructor
  · simp [execSpec, h]
  · simp [execSpec, h]

/-- C7 witness: the amended dispatcher behavior at the concrete missing
name "ghost". -/
theorem c7_lookup_failure_witness :
    findComponent artUR.sections "ghost" = none ∧
    execSpec artUR.sections insGhost = Except.error ExecErr.typeError ∧
    execSpec artUR.sections updGhost = Except.ok artUR.sections :=
  ⟨rfl, (c7_lookup_failure artUR.sections "ghost" ['z'] 0 rfl).1,
    (c7_lookup_failure artUR.sections "ghost" ['z'] 0 rfl).2⟩

/-- C8: the code does not fail with NotFound on an absent section.
indexOf returns -1 and splice(-1, 1) removes the LAST section: removing
the absent secS2 from the one-section document artUR silently deletes
secS and still returns secS2 as the "removed" section. -/
theorem c8_remove_section_bug :
    artUR.sections = [secS] ∧
    (artUR.removeSection secS2).1.sections = [] ∧
    (artUR.removeSection secS2).2 = secS2 :=
  ⟨rfl, by decide, rfl⟩

/-- C9: in every state reachable from a freshly constructed article by
any sequence of transaction / undo / redo calls — crashing calls
included — the cursor invariant 0 ≤ historyAt ≤ history.length holds, so
historyAt always partitions the history into applied entries (indices
below it) and redoable entries (indices at or above it). -/
theorem c9_cursor_invariant (a : Article) (h : Reachable a) :
    a.historyAt ≤ a.history.length := by
  induction h with
  | init ss => exact Nat.zero_le _
  | tx a T _ ih =>
    have hlog := transaction_log T ih
    rw [hlog.1, hlog.2]
    have hlen : (a.history.take a.historyAt).length = a.historyAt := by
      rw [List.length_take]; omega
    simp [hlen]
  | un a _ ih =>
    have hlog := undo_log a
    rw [hlog.1]
    omega
  | re a _ ih => exact redo_at_le ih

/-- C9 witness: the invariant at the freshly constructed empty article. -/
theorem c9_cursor_invariant_witness :
    (newArticle []).historyAt ≤ (newArticle []).history.length :=
  c9_cursor_invariant (newArticle []) (Reachable.init [])

/-- C10: undo() and redo() never modify the history sequence — same
length, same transaction objects — whether they succeed, no-op or crash;
only the cursor and the document content can change (the article state
consists of exactly sections, history and historyAt). -/
theorem c10_history_frame (a : Article) :
    (resState a.undo).history = a.history ∧
    (resState a.redo).history = a.history :=
  ⟨(undo_log a).1, redo_hist a⟩

end Carbon
